import Mathlib

/-!
Verification of the yabridge CLAP bridge core against its specification.

The development shallowly embeds the bridge core described in `spec.md`:

* the CLAP plugin descriptor marshalling from
  `src/common/serialization/clap/plugin.cpp` (`clap::plugin::descriptor`),
* the instance registry of `ClapBridge` (`generate_instance_id`,
  `register_plugin_instance`, `unregister_object_instance`, `get_instance`),
* the shared audio buffer negotiation (`setup_shared_audio_buffers`),
* the result caches of `Vst3PluginProxyImpl` (`clear_caches` and the
  bus/parameter caches),
* the tagged request unions of the CLAP communication layer
  (`ClapMainThreadControlRequest` and friends),
* the mutual recursion coordinator (`MutualRecursionHelper`,
  `do_mutual_recursion_on_gui_thread`, `send_mutually_recursive_message`),
* the strictly request/response channel discipline of `send_message`.

Functions whose bodies are present in the sources are translated directly;
components for which this slice only contains declarations and doc comments
(the registry bodies, the socket layer, `MutualRecursionHelper`, the cache
getters) are modelled from the specification, and each such definition says so
in its doc comment.
-/

/- ===================== CLAP plugin descriptor (C10) ===================== -/

/-- The `clap_version_t` struct from the CLAP headers: a major/minor/revision
triple. -/
structure clap_version_t where
  major : Nat
  minor : Nat
  revision : Nat
deriving DecidableEq

/-- The `clap_plugin_descriptor_t` struct from the CLAP headers. All string
fields are nullable C strings, modelled as `Option String`; `features` is a
nullable envp-style null-terminated array, modelled as an optional list. -/
structure clap_plugin_descriptor_t where
  clap_version : clap_version_t
  id : Option String
  name : Option String
  vendor : Option String
  url : Option String
  manual_url : Option String
  support_url : Option String
  version : Option String
  description : Option String
  features : Option (List String)
deriving DecidableEq

/-- The owned `clap::plugin::descriptor` object built by the constructor in
`src/common/serialization/clap/plugin.cpp`: required strings are owned
`std::string`s, optional ones `std::optional<std::string>`, and the features
array an owned vector. -/
structure descriptor where
  clap_version : clap_version_t
  id : String
  name : String
  vendor : Option String
  url : Option String
  manual_url : Option String
  support_url : Option String
  version : Option String
  description : Option String
  features : List String
deriving DecidableEq

/-- `descriptor::descriptor(const clap_plugin_descriptor_t&)` from
`src/common/serialization/clap/plugin.cpp`. The member initializer for `name`
in the source reads `original.id` (`name((assert(original.id), original.id))`),
which is embedded faithfully here. A null `features` pointer yields an empty
vector. The `h` argument reflects the `assert(original.id)` precondition. -/
def descriptor.of_original (original : clap_plugin_descriptor_t)
    (h : original.id.isSome = true) : descriptor :=
  { clap_version := original.clap_version
    id := original.id.get h
    name := original.id.get h
    vendor := original.vendor
    url := original.url
    manual_url := original.manual_url
    support_url := original.support_url
    version := original.version
    description := original.description
    features := original.features.getD [] }

/-- Modelled from the spec: the `CLAP_VERSION` constant bundled with yabridge
(`CLAP_VERSION_MAJOR`/`MINOR`/`REVISION`). The CLAP header is not part of this
slice; the claims do not depend on the concrete numbers. -/
def CLAP_VERSION : clap_version_t := ⟨1, 1, 1⟩

/-- `descriptor::get()` from `src/common/serialization/clap/plugin.cpp`:
rebuilds a `clap_plugin_descriptor_t` pointing at the owned strings, clamping
the advertised CLAP version to yabridge's supported version when the plugin's
version is lexicographically newer. -/
def descriptor.get (d : descriptor) : clap_plugin_descriptor_t :=
  let supported_clap_version :=
    if CLAP_VERSION.major < d.clap_version.major ∨
        (d.clap_version.major = CLAP_VERSION.major ∧
          (CLAP_VERSION.minor < d.clap_version.minor ∨
            (d.clap_version.minor = CLAP_VERSION.minor ∧
              CLAP_VERSION.revision < d.clap_version.revision))) then
      CLAP_VERSION
    else
      d.clap_version
  { clap_version := supported_clap_version
    id := some d.id
    name := some d.name
    vendor := d.vendor
    url := d.url
    manual_url := d.manual_url
    support_url := d.support_url
    version := d.version
    description := d.description
    features := some d.features }

/-- A concrete CLAP descriptor whose `name` differs from its `id`, used to
evaluate the marshalling round trip. -/
def demo_clap_descriptor : clap_plugin_descriptor_t :=
  { clap_version := ⟨1, 0, 2⟩
    id := some "com.example.gain"
    name := some "Gain"
    vendor := some "Example"
    url := none
    manual_url := none
    support_url := none
    version := some "1.0.0"
    description := none
    features := some ["audio-effect"] }

/- ===================== Instance registry (C1, C2) ===================== -/

/-- Modelled from the spec: the error taxonomy entry for registry lookups on an
id that is not (or no longer) registered. -/
inductive RegistryError where
  | NotFound
deriving DecidableEq

/-- Modelled from the spec: the `std::shared_lock<std::shared_mutex>` guard
returned by `ClapBridge::get_instance` alongside the instance reference. -/
inductive LockGuard where
  | read_lock
deriving DecidableEq

/-- Modelled from the spec: the state owned by `ClapBridge` that the registry
operations touch — the atomic `current_instance_id_` counter and the
`object_instances_` map from generated ids to plugin instances (instances are
represented by their native plugin handle). The bodies of the registry member
functions are not part of this slice; their behaviour follows the spec's
registry contract. -/
structure InstanceRegistry where
  current_instance_id : Nat
  object_instances : List (Nat × Nat)
deriving DecidableEq

/-- The registry of a freshly constructed `ClapBridge`: counter at zero, no
instances. -/
def initial_registry : InstanceRegistry := ⟨0, []⟩

/-- The ids of all live instances in the registry. -/
def InstanceRegistry.live_ids (st : InstanceRegistry) : List Nat :=
  st.object_instances.map Prod.fst

/-- Modelled from the spec: `ClapBridge::generate_instance_id` performs an
atomic fetch-and-add on `current_instance_id_`, returning the previous value.
Ids come only from this counter, never from reuse of freed slots. -/
def generate_instance_id (st : InstanceRegistry) : Nat × InstanceRegistry :=
  (st.current_instance_id,
    { st with current_instance_id := st.current_instance_id + 1 })

/-- Modelled from the spec: `ClapBridge::register_plugin_instance` assigns a
fresh id via `generate_instance_id` and inserts the instance into
`object_instances_` under the write lock. -/
def register_plugin_instance (st : InstanceRegistry) (handle : Nat) :
    Nat × InstanceRegistry :=
  let r := generate_instance_id st
  (r.1, { r.2 with object_instances := (r.1, handle) :: r.2.object_instances })

/-- Modelled from the spec: `ClapBridge::unregister_object_instance` removes
the entry for `instance_id` from `object_instances_` under the write lock. -/
def unregister_object_instance (st : InstanceRegistry) (instance_id : Nat) :
    InstanceRegistry :=
  { st with
    object_instances :=
      st.object_instances.filter (fun p => decide (p.1 ≠ instance_id)) }

/-- Modelled from the spec: `ClapBridge::get_instance` takes the read lock and
looks the id up in `object_instances_`, returning the instance together with
the lock guard, or `NotFound` when the id is not (or no longer) registered. -/
def get_instance (st : InstanceRegistry) (instance_id : Nat) :
    Except RegistryError (Nat × LockGuard) :=
  match st.object_instances.find? (fun p => decide (p.1 = instance_id)) with
  | some p => .ok (p.2, .read_lock)
  | none => .error .NotFound

/-- One host-driven registry operation: instantiate a plugin (registering it)
or drop a proxy (unregistering its id). -/
inductive RegistryOp where
  | register (handle : Nat)
  | unregister (instance_id : Nat)
deriving DecidableEq

/-- Apply a single registry operation to the bridge state. -/
def apply_registry_op (st : InstanceRegistry) : RegistryOp → InstanceRegistry
  | .register handle => (register_plugin_instance st handle).2
  | .unregister instance_id => unregister_object_instance st instance_id

/-- Run a sequence of registry operations from a starting state. -/
def run_registry (st : InstanceRegistry) : List RegistryOp → InstanceRegistry
  | [] => st
  | op :: rest => run_registry (apply_registry_op st op) rest

/-- The registry invariant: live ids are pairwise distinct and every live id
was issued by the counter (is below `current_instance_id_`). -/
def RegistryInv (st : InstanceRegistry) : Prop :=
  st.live_ids.Nodup ∧ ∀ p ∈ st.object_instances, p.1 < st.current_instance_id

theorem registry_inv_initial : RegistryInv initial_registry := by
  constructor
  · simp [initial_registry, InstanceRegistry.live_ids]
  · intro p hp
    simp [initial_registry] at hp

theorem registry_inv_step (st : InstanceRegistry) (op : RegistryOp)
    (h : RegistryInv st) : RegistryInv (apply_registry_op st op) := by
  obtain ⟨hnodup, hbound⟩ := h
  cases op with
  | register handle =>
      constructor
      · simp only [apply_registry_op, register_plugin_instance,
          generate_instance_id, InstanceRegistry.live_ids, List.map_cons,
          List.nodup_cons]
        refine ⟨?_, hnodup⟩
        intro hmem
        simp only [List.mem_map] at hmem
        obtain ⟨p, hp, hfst⟩ := hmem
        exact absurd (hfst ▸ hbound p hp) (lt_irrefl _)
      · intro p hp
        simp only [apply_registry_op, register_plugin_instance,
          generate_instance_id, List.mem_cons] at hp ⊢
        rcases hp with h1 | h1
        · subst h1
          exact Nat.lt_succ_self _
        · exact Nat.lt_succ_of_lt (hbound p h1)
  | unregister instance_id =>
      constructor
      · simp only [apply_registry_op, unregister_object_instance,
          InstanceRegistry.live_ids]
        exact ((List.filter_sublist _).map Prod.fst).nodup hnodup
      · intro p hp
        simp only [apply_registry_op, unregister_object_instance] at hp ⊢
        exact hbound p (List.mem_of_mem_filter hp)

theorem registry_inv_run (st : InstanceRegistry) (ops : List RegistryOp)
    (h : RegistryInv st) : RegistryInv (run_registry st ops) := by
  induction ops generalizing st with
  | nil => exact h
  | cons op rest ih => exact ih _ (registry_inv_step st op h)

theorem run_registry_append (st : InstanceRegistry)
    (ops more : List RegistryOp) :
    run_registry st (ops ++ more) = run_registry (run_registry st ops) more := by
  induction ops generalizing st with
  | nil => rfl
  | cons op rest ih => simp [run_registry, ih]

theorem get_instance_not_found_iff (st : InstanceRegistry) (instance_id : Nat) :
    get_instance st instance_id = .error .NotFound ↔
      instance_id ∉ st.live_ids := by
  unfold get_instance
  constructor
  · intro h hmem
    simp only [InstanceRegistry.live_ids, List.mem_map] at hmem
    obtain ⟨q, hq, hfst⟩ := hmem
    rcases hfind : st.object_instances.find? (fun p => decide (p.1 = instance_id))
      with _ | p
    · have := List.find?_eq_none.mp hfind q hq
      simp [hfst] at this
    · rw [hfind] at h
      simp at h
  · intro hnotin
    rcases hfind : st.object_instances.find? (fun p => decide (p.1 = instance_id))
      with _ | p
    · rw [hfind]
    · exfalso
      have hp : p.1 = instance_id := by simpa using List.find?_some hfind
      refine hnotin ?_
      simp only [InstanceRegistry.live_ids, List.mem_map]
      exact ⟨p, List.mem_of_find?_eq_some hfind, hp⟩

/-- The per-id preservation property used for the no-reuse argument: once an
id is dead but below the counter, it stays dead and below the counter. -/
def IdRetired (instance_id : Nat) (st : InstanceRegistry) : Prop :=
  instance_id ∉ st.live_ids ∧ instance_id < st.current_instance_id

theorem id_retired_step (instance_id : Nat) (st : InstanceRegistry)
    (op : RegistryOp) (h : IdRetired instance_id st) :
    IdRetired instance_id (apply_registry_op st op) := by
  obtain ⟨hdead, hlt⟩ := h
  cases op with
  | register handle =>
      constructor
      · simp only [apply_registry_op, register_plugin_instance,
          generate_instance_id, InstanceRegistry.live_ids, List.map_cons,
          List.mem_cons]
        intro hmem
        rcases hmem with h1 | h1
        · exact absurd h1 (Nat.ne_of_lt hlt)
        · exact hdead h1
      · simp only [apply_registry_op, register_plugin_instance,
          generate_instance_id]
        exact Nat.lt_succ_of_lt hlt
  | unregister other =>
      constructor
      · simp only [apply_registry_op, unregister_object_instance,
          InstanceRegistry.live_ids]
        intro hmem
        simp only [List.mem_map] at hmem
        obtain ⟨p, hp, hfst⟩ := hmem
        refine hdead ?_
        simp only [InstanceRegistry.live_ids, List.mem_map]
        exact ⟨p, List.mem_of_mem_filter hp, hfst⟩
      · exact hlt

theorem id_retired_run (instance_id : Nat) (st : InstanceRegistry)
    (ops : List RegistryOp) (h : IdRetired instance_id st) :
    IdRetired instance_id (run_registry st ops) := by
  induction ops generalizing st with
  | nil => exact h
  | cons op rest ih => exact ih _ (id_retired_step instance_id st op h)

/-- Claim C1: for every sequence of register and unregister operations on the
instance registry, no two live instances ever hold the same id (the live id
list is duplicate-free), and once an id has been issued (it is below the
atomically incremented counter) and unregistered (lookup fails), a lookup on
that id never succeeds again after any further sequence of operations: a freed
id is never reissued. -/
theorem registry_ids_never_reused (ops more : List RegistryOp)
    (instance_id : Nat)
    (hfreed : get_instance (run_registry initial_registry ops) instance_id =
      .error .NotFound)
    (hissued : instance_id <
      (run_registry initial_registry ops).current_instance_id) :
    (run_registry initial_registry (ops ++ more)).live_ids.Nodup ∧
      get_instance (run_registry initial_registry (ops ++ more)) instance_id =
        .error .NotFound := by
  constructor
  · exact (registry_inv_run initial_registry (ops ++ more)
      registry_inv_initial).1
  · rw [run_registry_append]
    have hretired : IdRetired instance_id (run_registry initial_registry ops) :=
      ⟨(get_instance_not_found_iff _ _).mp hfreed, hissued⟩
    exact (get_instance_not_found_iff _ _).mpr
      (id_retired_run instance_id _ more hretired).1

/-- Witness for C1: after registering two plugins and unregistering id 0, a
further register does not reissue id 0, and the live ids stay distinct. -/
theorem registry_ids_never_reused_witness :
    (run_registry initial_registry
        ([.register 10, .register 11, .unregister 0] ++
          [.register 12])).live_ids.Nodup ∧
      get_instance
        (run_registry initial_registry
          ([.register 10, .register 11, .unregister 0] ++ [.register 12])) 0 =
        .error .NotFound :=
  registry_ids_never_reused [.register 10, .register 11, .unregister 0]
    [.register 12] 0 rfl (by decide)

/-- Claim C2: for every instance id that is not registered (never registered
or already unregistered), `get_instance` fails with `NotFound` rather than
returning an instance reference; for every registered id it returns the stored
instance together with the read-lock guard. -/
theorem get_instance_spec (st : InstanceRegistry) (instance_id handle : Nat)
    (hnodup : st.live_ids.Nodup) :
    (instance_id ∉ st.live_ids →
      get_instance st instance_id = .error .NotFound) ∧
    ((instance_id, handle) ∈ st.object_instances →
      get_instance st instance_id = .ok (handle, .read_lock)) := by
  constructor
  · exact fun h => (get_instance_not_found_iff st instance_id).mpr h
  · intro hmem
    unfold get_instance
    rcases hfind : st.object_instances.find? (fun p => decide (p.1 = instance_id))
      with _ | p
    · exfalso
      have := List.find?_eq_none.mp hfind _ hmem
      simp at this
    · have hp : p.1 = instance_id := by simpa using List.find?_some hfind
      have hpmem := List.mem_of_find?_eq_some hfind
      have hsnd : p.2 = handle := by
        have h2 : instance_id = p.1 := hp.symm
        have hinj :=
          List.inj_on_of_nodup_map (f := Prod.fst)
            (l := st.object_instances) (by
              simpa [InstanceRegistry.live_ids] using hnodup)
        have := hinj hpmem hmem (by simp [hp])
        simp [this]
      rw [hfind]
      simp [hp, hsnd]

/-- Witness for C2: in a registry holding ids 0 and 1, looking up id 5 fails
with `NotFound` and looking up id 1 returns its instance with the read lock. -/
theorem get_instance_spec_witness :
    get_instance ⟨2, [(0, 10), (1, 11)]⟩ 5 = .error .NotFound ∧
      get_instance ⟨2, [(0, 10), (1, 11)]⟩ 1 = .ok (11, .read_lock) :=
  ⟨(get_instance_spec ⟨2, [(0, 10), (1, 11)]⟩ 5 0 (by decide)).1 (by decide),
    (get_instance_spec ⟨2, [(0, 10), (1, 11)]⟩ 1 11 (by decide)).2 (by decide)⟩

/- ============== Shared audio buffer negotiation (C3) ============== -/

/-- Modelled from the spec: the buffer size parameters passed to
`clap_plugin::activate()` and stored in the `ClapPluginInstance` — the sample
kind (32- or 64-bit float), the per-direction bus layouts as ordered channel
counts, and the frame capacity. -/
structure ActivationParams where
  double_precision : Bool
  input_channel_counts : List Nat
  output_channel_counts : List Nat
  max_frames : Nat
deriving DecidableEq

/-- Modelled from the spec: `AudioShmBuffer::Config`, the negotiated shared
memory audio buffer configuration. The region name is derived
deterministically from the instance id so both processes map the same region;
the layout fields mirror the activation parameters. A config is immutable once
constructed. -/
structure AudioShmBufferConfig where
  name : String
  double_precision : Bool
  input_channel_counts : List Nat
  output_channel_counts : List Nat
  max_frames : Nat
deriving DecidableEq

/-- Modelled from the spec: the deterministic shared memory region name for an
instance's audio buffers, derived from the instance id. -/
def shm_buffer_name (instance_id : Nat) : String :=
  String.append "yabridge-audio-buffers-" (Nat.repr instance_id)

/-- Modelled from the spec: compute the buffer configuration an instance needs
from its activation parameters. -/
def config_from_params (instance_id : Nat) (params : ActivationParams) :
    AudioShmBufferConfig :=
  { name := shm_buffer_name instance_id
    double_precision := params.double_precision
    input_channel_counts := params.input_channel_counts
    output_channel_counts := params.output_channel_counts
    max_frames := params.max_frames }

/-- The audio-buffer related state of a `ClapPluginInstance`: the activation
parameters (absent before `clap_plugin::activate()` is called) and
`process_buffers`, the currently active shared-memory configuration (absent
before the first negotiation). -/
structure InstanceAudioState where
  activation_params : Option ActivationParams
  process_buffers : Option AudioShmBufferConfig
deriving DecidableEq

/-- Modelled from the spec: `ClapBridge::setup_shared_audio_buffers`. Returns
`none` when the activation parameters have not yet been set, and also when the
buffers were already set up and the configuration has not changed; otherwise
it allocates buffers for the new configuration, stores it in the instance, and
returns it so the native plugin can connect to the same region. -/
def setup_shared_audio_buffers (instance_id : Nat)
    (inst : InstanceAudioState) :
    Option AudioShmBufferConfig × InstanceAudioState :=
  match inst.activation_params with
  | none => (none, inst)
  | some params =>
    let new_config := config_from_params instance_id params
    match inst.process_buffers with
    | some old_config =>
      if new_config = old_config then
        (none, inst)
      else
        (some new_config, { inst with process_buffers := some new_config })
    | none =>
      (some new_config, { inst with process_buffers := some new_config })

/-- Claim C3: negotiating the shared audio buffers a second time with
parameters identical to the currently active configuration returns `None`
without touching the instance state, while negotiating with a changed frame
capacity returns a new `Config` different from the previously active one. -/
theorem setup_shared_audio_buffers_idempotent (instance_id : Nat)
    (params params2 : ActivationParams) (inst : InstanceAudioState)
    (hparams : inst.activation_params = some params)
    (hactive : inst.process_buffers =
      some (config_from_params instance_id params))
    (hframes : params2.max_frames ≠ params.max_frames) :
    setup_shared_audio_buffers instance_id inst = (none, inst) ∧
      ∃ new_config,
        setup_shared_audio_buffers instance_id
            { inst with activation_params := some params2 } =
          (some new_config,
            { inst with
              activation_params := some params2
              process_buffers := some new_config }) ∧
        new_config ≠ config_from_params instance_id params := by
  constructor
  · simp [setup_shared_audio_buffers, hparams, hactive]
  · refine ⟨config_from_params instance_id params2, ?_, ?_⟩
    · have hne : config_from_params instance_id params2 ≠
          config_from_params instance_id params := by
        intro h
        exact hframes (congrArg AudioShmBufferConfig.max_frames h)
      simp [setup_shared_audio_buffers, hactive, hne]
    · intro h
      exact hframes (congrArg AudioShmBufferConfig.max_frames h)

/-- Witness for C3: a stereo float32 512-frame activation followed by an
identical re-negotiation returns `None`, and re-activating at 1024 frames
yields a fresh, different config. -/
theorem setup_shared_audio_buffers_idempotent_witness :
    setup_shared_audio_buffers 1
        ⟨some ⟨false, [2], [2], 512⟩,
          some (config_from_params 1 ⟨false, [2], [2], 512⟩)⟩ =
      (none,
        ⟨some ⟨false, [2], [2], 512⟩,
          some (config_from_params 1 ⟨false, [2], [2], 512⟩)⟩) ∧
    ∃ new_config,
      setup_shared_audio_buffers 1
          ⟨some ⟨false, [2], [2], 1024⟩,
            some (config_from_params 1 ⟨false, [2], [2], 512⟩)⟩ =
        (some new_config,
          ⟨some ⟨false, [2], [2], 1024⟩, some new_config⟩) ∧
      new_config ≠ config_from_params 1 ⟨false, [2], [2], 512⟩ :=
  setup_shared_audio_buffers_idempotent 1 ⟨false, [2], [2], 512⟩
    ⟨false, [2], [2], 1024⟩
    ⟨some ⟨false, [2], [2], 512⟩,
      some (config_from_params 1 ⟨false, [2], [2], 512⟩)⟩
    rfl rfl (by decide)

/- ============== Mutual recursion coordinator (C6, C7, C9) ============== -/

/-- Modelled from the spec: the thread-local/domain-local state of a
`MutualRecursionHelper` — the threads that currently have an active fork for
this helper's recursion domain. -/
structure MutualRecursionHelper where
  active_fork_threads : List Nat
deriving DecidableEq

/-- Modelled from the spec: `MutualRecursionHelper::maybe_handle`. If the
current thread already has an active fork for this helper's domain, run `fn`
immediately in place on this thread and return its result; otherwise report
"not handled" so the caller falls back to its normal dispatch path. -/
def maybe_handle {α : Type} (helper : MutualRecursionHelper)
    (current_thread : Nat) (fn : Unit → α) : Option α :=
  if current_thread ∈ helper.active_fork_threads then some (fn ()) else none

/-- Where a dispatched function ended up being executed: inline on the calling
thread through the mutual recursion mechanism, or submitted to the main IO
context's event queue. -/
inductive ExecLocation where
  | in_place (thread : Nat)
  | main_context_queue
deriving DecidableEq

/-- Modelled from the spec: `MainContext::run_in_context(fn).get()` — submit
`fn` to the main IO context's event queue and block until it has run there,
returning its result. -/
def run_in_context {α : Type} (fn : Unit → α) : α × ExecLocation :=
  (fn (), .main_context_queue)

/-- `ClapBridge::do_mutual_recursion_on_gui_thread` from
`src/wine-host/bridges/clap.h`: if `send_mutually_recursive_message()` is
currently being called from some thread (detected via
`mutual_recursion_.maybe_handle`), call `fn` from that same thread; otherwise
submit it to the main IO context and block on the result. -/
def do_mutual_recursion_on_gui_thread {α : Type}
    (helper : MutualRecursionHelper) (current_thread : Nat) (fn : Unit → α) :
    α × ExecLocation :=
  match maybe_handle helper current_thread fn with
  | some result => (result, .in_place current_thread)
  | none => run_in_context fn

/-- Claim C6: a function dispatched through
`do_mutual_recursion_on_gui_thread` is executed immediately in place on the
current thread, returning its result, exactly when that thread has an active
fork for the relevant recursion domain; otherwise it falls back to the normal
dispatch path, submitting the function to the main context's event queue and
blocking on its completion. -/
theorem do_mutual_recursion_dispatch {α : Type}
    (helper : MutualRecursionHelper) (current_thread : Nat) (fn : Unit → α) :
    (current_thread ∈ helper.active_fork_threads →
      do_mutual_recursion_on_gui_thread helper current_thread fn =
        (fn (), .in_place current_thread)) ∧
    (current_thread ∉ helper.active_fork_threads →
      do_mutual_recursion_on_gui_thread helper current_thread fn =
        (fn (), .main_context_queue)) := by
  constructor
  · intro hmem
    simp [do_mutual_recursion_on_gui_thread, maybe_handle, hmem]
  · intro hmem
    simp [do_mutual_recursion_on_gui_thread, maybe_handle, run_in_context, hmem]

/-- Witness for C6: with a fork active on thread 3, a dispatch from thread 3
runs in place there; a dispatch from thread 4 goes through the main context
queue. Both return the function's value. -/
theorem do_mutual_recursion_dispatch_witness :
    do_mutual_recursion_on_gui_thread ⟨[3]⟩ 3 (fun _ => 42) =
        (42, .in_place 3) ∧
      do_mutual_recursion_on_gui_thread ⟨[3]⟩ 4 (fun _ => 42) =
        (42, .main_context_queue) :=
  ⟨(do_mutual_recursion_dispatch ⟨[3]⟩ 3 (fun _ => 42)).1 (by decide),
    (do_mutual_recursion_dispatch ⟨[3]⟩ 4 (fun _ => 42)).2 (by decide)⟩

/-- Modelled from the spec: the error taxonomy entry for a fork attempted on a
domain already forked on the same thread. -/
inductive MutualRecursionError where
  | ReentrancyViolation
deriving DecidableEq

/-- One fork lifecycle transition: a thread enters a fork for a recursion
domain (about to make a blocking round trip) or leaves it (the round trip
completed or failed). -/
inductive ForkOp where
  | fork_enter (thread domain : Nat)
  | fork_exit (thread domain : Nat)
deriving DecidableEq

/-- Modelled from the spec: apply one fork transition to the set of active
(thread, domain) fork markers. Entering a domain already forked on the same
thread is a fatal `ReentrancyViolation` logic error; leaving removes the
marker. -/
def apply_fork_op (active : List (Nat × Nat)) :
    ForkOp → Except MutualRecursionError (List (Nat × Nat))
  | .fork_enter thread domain =>
    if (thread, domain) ∈ active then .error .ReentrancyViolation
    else .ok ((thread, domain) :: active)
  | .fork_exit thread domain => .ok (active.erase (thread, domain))

/-- Run a sequence of fork transitions, stopping at the first fatal error. -/
def run_forks (active : List (Nat × Nat)) :
    List ForkOp → Except MutualRecursionError (List (Nat × Nat))
  | [] => .ok active
  | op :: rest =>
    match apply_fork_op active op with
    | .ok active2 => run_forks active2 rest
    | .error e => .error e

theorem run_forks_nodup (ops : List ForkOp) (active : List (Nat × Nat))
    (hnodup : active.Nodup) :
    ∀ final, run_forks active ops = .ok final → final.Nodup := by
  induction ops generalizing active with
  | nil =>
      intro final h
      simp only [run_forks] at h
      cases h
      exact hnodup
  | cons op rest ih =>
      intro final h
      simp only [run_forks] at h
      cases op with
      | fork_enter thread domain =>
          simp only [apply_fork_op] at h
          by_cases hmem : (thread, domain) ∈ active
          · simp [hmem] at h
          · simp only [hmem, if_neg, ite_false] at h
            exact ih _ (List.nodup_cons.mpr ⟨hmem, hnodup⟩) final h
      | fork_exit thread domain =>
          simp only [apply_fork_op] at h
          exact ih _ (hnodup.erase _) final h

/-- Claim C7: for every thread and every recursion domain, at most one fork is
active per domain per thread at any time (the active marker list reached by
any successful sequence of fork transitions contains each (thread, domain)
pair at most once), and attempting a second fork on a domain already forked on
the same thread is a fatal `ReentrancyViolation` logic error, never silently
tolerated. -/
theorem fork_reentrancy_fatal (ops : List ForkOp) (final : List (Nat × Nat))
    (h : run_forks [] ops = .ok final) :
    final.Nodup ∧
      ∀ thread domain, (thread, domain) ∈ final →
        apply_fork_op final (.fork_enter thread domain) =
          .error .ReentrancyViolation := by
  have hnodup : final.Nodup := run_forks_nodup ops [] (by simp) final h
  constructor
  · exact hnodup
  · intro thread domain hmem
    simp [apply_fork_op, hmem]

/-- Witness for C7: after thread 1 forks domain 0, exits it, and forks it
again, the marker appears exactly once and a further fork on (1, 0) is a
`ReentrancyViolation`. -/
theorem fork_reentrancy_fatal_witness :
    List.Nodup [((1 : Nat), (0 : Nat))] ∧
      ∀ thread domain, (thread, domain) ∈ [(1, 0)] →
        apply_fork_op [(1, 0)] (.fork_enter thread domain) =
          .error .ReentrancyViolation :=
  fork_reentrancy_fatal
    [.fork_enter 1 0, .fork_exit 1 0, .fork_enter 1 0] [(1, 0)] rfl

/- ========= send_mutually_recursive_message (C9) ========= -/

/-- Modelled from the spec: `ClapBridge::send_message` — serialize the message
over the main thread callback socket, block until the peer replies, and return
the deserialized response. The socket layer is not part of this slice, so the
peer's behaviour is a parameter `respond`. -/
def send_message {α β : Type} (respond : α → β) (object : α) : β :=
  respond object

/-- `ClapBridge::send_mutually_recursive_message` from
`src/wine-host/bridges/clap.h`, embedded as written. On the GUI thread the
message is sent through `mutual_recursion_.fork`, whose value is the result of
the `send_message` round trip. On any other thread the source calls
`send_message(object)` as a bare statement, discards its result, and reaches
the end of the non-void function without a return statement (the
`return audio_thread_mutual_recursion_.fork(...)` line is commented out), so
no response value is produced; the absence of a returned value is modelled by
`none`. -/
def send_mutually_recursive_message {α β : Type} (respond : α → β)
    (is_gui_thread : Bool) (object : α) : Option β :=
  if is_gui_thread then
    some (send_message respond object)
  else
    let _ := send_message respond object
    none

/-- Claim C9 (code evaluated at the failing input): on the GUI thread
`send_mutually_recursive_message` returns the response produced by
`send_message`, but on a non-GUI thread it produces no response value at all —
the response `send_message` produced for the message is dropped, contradicting
the claim that the response is returned regardless of the calling thread. -/
theorem send_mutually_recursive_message_drops_response :
    send_mutually_recursive_message (fun n : Nat => n + 1) true 7 = some 8 ∧
      send_mutually_recursive_message (fun n : Nat => n + 1) false 7 = none ∧
      send_mutually_recursive_message (fun n : Nat => n + 1) false 7 ≠
        some (send_message (fun n : Nat => n + 1) 7) := by
  refine ⟨rfl, rfl, ?_⟩
  intro h
  simp [send_mutually_recursive_message, send_message] at h

/- ========= CLAP descriptor marshalling round trip (C10) ========= -/

/-- Claim C10 (code evaluated at the failing input): constructing a
`clap::plugin::descriptor` from a CLAP descriptor whose name differs from its
id and calling `get()` yields a descriptor whose `name` equals the original's
`id`, not its `name` — the constructor's member initializer for `name` reads
`original.id`. All other string fields and the features array survive the
round trip, and the CLAP version is clamped as described. -/
theorem descriptor_round_trip_name_diverges :
    ((descriptor.of_original demo_clap_descriptor rfl).get).name =
        demo_clap_descriptor.id ∧
      ((descriptor.of_original demo_clap_descriptor rfl).get).name ≠
        demo_clap_descriptor.name ∧
      ((descriptor.of_original demo_clap_descriptor rfl).get).id =
        demo_clap_descriptor.id ∧
      ((descriptor.of_original demo_clap_descriptor rfl).get).vendor =
        demo_clap_descriptor.vendor ∧
      ((descriptor.of_original demo_clap_descriptor rfl).get).features =
        demo_clap_descriptor.features ∧
      ((descriptor.of_original demo_clap_descriptor rfl).get).clap_version =
        demo_clap_descriptor.clap_version := by
  refine ⟨rfl, ?_, rfl, rfl, rfl, rfl⟩
  intro h
  simp [descriptor.get, descriptor.of_original, demo_clap_descriptor] at h

/- ===================== Result caches (C4) ===================== -/

/-- An event hitting one result cache: a cached query with its arguments, or
an invalidation event (`clear_caches` on a restart notification, or leaving
the processing state). -/
inductive CacheEvent (α : Type) where
  | query (args : α)
  | invalidate
deriving DecidableEq

/-- Modelled from the spec: the state of one result cache of
`Vst3PluginProxyImpl` (the `processing_bus_cache` / `parameter_info_cache`
pattern): the memoized argument/result pairs, plus a count of the real round
trips performed so far (the observable side effect of consulting the
authoritative answer). -/
structure CacheState (α β : Type) where
  entries : List (α × β)
  round_trips : Nat
deriving DecidableEq

/-- A freshly constructed cache: no entries, no round trips performed. -/
def cache_empty {α β : Type} : CacheState α β := ⟨[], 0⟩

/-- Look an argument tuple up in the memoized entries. -/
def cache_lookup {α β : Type} [DecidableEq α] (entries : List (α × β))
    (args : α) : Option β :=
  (entries.find? (fun p => decide (p.1 = args))).map Prod.snd

/-- Modelled from the spec: one cached query (the pattern of
`getBusCount`/`getBusInfo`/`getParameterCount`/`getParameterInfo`): consult
the cache first; on a hit return the memoized result without a round trip, on
a miss perform the real round trip (whose answer may depend on how many round
trips happened before — the plugin is authoritative) and memoize its result.
The oracle `oracle n args` is the answer the real round trip number `n` would
produce for `args`. -/
def cached_query {α β : Type} [DecidableEq α] (oracle : Nat → α → β)
    (st : CacheState α β) (args : α) : β × CacheState α β :=
  match cache_lookup st.entries args with
  | some r => (r, st)
  | none =>
    let r := oracle st.round_trips args
    (r, ⟨(args, r) :: st.entries, st.round_trips + 1⟩)

/-- `Vst3PluginProxyImpl::clear_caches` (declared in the sources): wholesale
invalidation of the memoized entries; no round trip happens. -/
def clear_caches {α β : Type} (st : CacheState α β) : CacheState α β :=
  ⟨[], st.round_trips⟩

/-- Run a sequence of cache events against the cache. -/
def run_cache {α β : Type} [DecidableEq α] (oracle : Nat → α → β)
    (st : CacheState α β) : List (CacheEvent α) → CacheState α β
  | [] => st
  | .query args :: rest => run_cache oracle (cached_query oracle st args).2 rest
  | .invalidate :: rest => run_cache oracle (clear_caches st) rest

/-- Whether an event window contains no invalidation event. -/
def queries_only {α : Type} : List (CacheEvent α) → Bool
  | [] => true
  | .query _ :: rest => queries_only rest
  | .invalidate :: _ => false

theorem cache_lookup_none_iff {α β : Type} [DecidableEq α]
    (entries : List (α × β)) (args : α) :
    cache_lookup entries args = none ↔ args ∉ entries.map Prod.fst := by
  unfold cache_lookup
  rcases hfind : entries.find? (fun p => decide (p.1 = args)) with _ | p
  · rw [hfind]
    simp only [Option.map_none']
    constructor
    · intro _ hmem
      obtain ⟨p, hp, hfst⟩ := List.mem_map.mp hmem
      exact absurd hfst (by simpa using List.find?_eq_none.mp hfind p hp)
    · intro _
      trivial
  · rw [hfind]
    simp only [Option.map_some']
    constructor
    · intro habs
      simp at habs
    · intro hnotin
      exfalso
      have h1 : p.1 = args := by simpa using List.find?_some hfind
      exact hnotin
        (List.mem_map.mpr ⟨p, List.mem_of_find?_eq_some hfind, h1⟩)

theorem cache_lookup_mem {α β : Type} [DecidableEq α]
    {entries : List (α × β)} {args : α} {r : β}
    (h : cache_lookup entries args = some r) : (args, r) ∈ entries := by
  unfold cache_lookup at h
  rcases hfind : entries.find? (fun p => decide (p.1 = args)) with _ | p
  · rw [hfind] at h
    simp at h
  · rw [hfind] at h
    simp only [Option.map_some'] at h
    have h1 : p.1 = args := by simpa using List.find?_some hfind
    have h2 : p ∈ entries := List.mem_of_find?_eq_some hfind
    have h3 : p = (args, r) := by
      rcases p with ⟨x, y⟩
      simp only at h1
      cases h
      rw [h1]
    rw [← h3]
    exact h2

theorem mem_cache_lookup {α β : Type} [DecidableEq α]
    {entries : List (α × β)} {args : α} {r : β}
    (hnodup : (entries.map Prod.fst).Nodup) (hmem : (args, r) ∈ entries) :
    cache_lookup entries args = some r := by
  induction entries with
  | nil => cases hmem
  | cons p rest ih =>
      rcases List.mem_cons.mp hmem with h | h
      · rw [← h]
        simp [cache_lookup, List.find?_cons_of_pos]
      · have hfst : args ∈ rest.map Prod.fst :=
          List.mem_map.mpr ⟨(args, r), h, rfl⟩
        have hne : ¬ p.1 = args := by
          intro heq
          exact (List.nodup_cons.mp hnodup).1 (heq ▸ hfst)
        unfold cache_lookup
        rw [List.find?_cons_of_neg _ (by simpa using hne)]
        exact ih (List.nodup_cons.mp hnodup).2 h

theorem cached_query_self_mem {α β : Type} [DecidableEq α]
    (oracle : Nat → α → β) (st : CacheState α β) (args : α) :
    (args, (cached_query oracle st args).1) ∈
      (cached_query oracle st args).2.entries := by
  unfold cached_query
  rcases hl : cache_lookup st.entries args with _ | r
  · simp
  · simpa using cache_lookup_mem hl

theorem cached_query_mono {α β : Type} [DecidableEq α]
    (oracle : Nat → α → β) (st : CacheState α β) (other : α)
    {args : α} {r : β} (h : (args, r) ∈ st.entries) :
    (args, r) ∈ (cached_query oracle st other).2.entries := by
  unfold cached_query
  rcases hl : cache_lookup st.entries other with _ | v
  · simp [h]
  · simpa using h

theorem run_cache_queries_mono {α β : Type} [DecidableEq α]
    (oracle : Nat → α → β) (evs : List (CacheEvent α)) (st : CacheState α β)
    {args : α} {r : β} (hq : queries_only evs = true)
    (h : (args, r) ∈ st.entries) :
    (args, r) ∈ (run_cache oracle st evs).entries := by
  induction evs generalizing st with
  | nil => exact h
  | cons e rest ih =>
      cases e with
      | query b =>
          exact ih ((cached_query oracle st b).2)
            (by simpa [queries_only] using hq)
            (cached_query_mono oracle st b h)
      | invalidate => simp [queries_only] at hq

theorem cached_query_nodup {α β : Type} [DecidableEq α]
    (oracle : Nat → α → β) (st : CacheState α β) (args : α)
    (h : (st.entries.map Prod.fst).Nodup) :
    ((cached_query oracle st args).2.entries.map Prod.fst).Nodup := by
  unfold cached_query
  rcases hl : cache_lookup st.entries args with _ | v
  · have hnotin := (cache_lookup_none_iff st.entries args).mp hl
    simp [List.nodup_cons, hnotin, h]
  · simpa using h

theorem run_cache_nodup {α β : Type} [DecidableEq α]
    (oracle : Nat → α → β) (evs : List (CacheEvent α)) (st : CacheState α β)
    (h : (st.entries.map Prod.fst).Nodup) :
    ((run_cache oracle st evs).entries.map Prod.fst).Nodup := by
  induction evs generalizing st with
  | nil => exact h
  | cons e rest ih =>
      cases e with
      | query b => exact ih _ (cached_query_nodup oracle st b h)
      | invalidate =>
          refine ih _ ?_
          simp [clear_caches]

/-- Claim C4: starting from any cache history `evs`, (1) a cache miss always
falls through to a real round trip — the result is the authoritative answer
of the next round trip, whose count increases; (2) after the first query of
`args`, any window `evs2` of further queries with no invalidation event leaves
a repeated identical query returning the same result as that first real round
trip without performing a new round trip (the state is untouched); (3) after
an invalidation event the next query of `args` performs a fresh round trip
instead of consulting the cache. -/
theorem cache_query_correct {α β : Type} [DecidableEq α]
    (oracle : Nat → α → β) (evs evs2 : List (CacheEvent α)) (args : α)
    (hq : queries_only evs2 = true) :
    let st := run_cache oracle cache_empty evs
    let first := cached_query oracle st args
    let later := run_cache oracle first.2 evs2
    (cache_lookup st.entries args = none →
      first.1 = oracle st.round_trips args ∧
        first.2.round_trips = st.round_trips + 1) ∧
      cached_query oracle later args = (first.1, later) ∧
      ((cached_query oracle (clear_caches first.2) args).1 =
          oracle first.2.round_trips args ∧
        (cached_query oracle (clear_caches first.2) args).2.round_trips =
          first.2.round_trips + 1) := by
  intro st first later
  have hnodup_st : (st.entries.map Prod.fst).Nodup := by
    refine run_cache_nodup oracle evs cache_empty ?_
    simp [cache_empty]
  refine ⟨?_, ?_, ?_⟩
  · intro hmiss
    constructor
    · show (cached_query oracle st args).1 = _
      unfold cached_query
      rw [hmiss]
    · show (cached_query oracle st args).2.round_trips = _
      unfold cached_query
      rw [hmiss]
  · have hfirst_mem : (args, first.1) ∈ first.2.entries :=
      cached_query_self_mem oracle st args
    have hlater_mem : (args, first.1) ∈ later.entries :=
      run_cache_queries_mono oracle evs2 first.2 hq hfirst_mem
    have hnodup_later : (later.entries.map Prod.fst).Nodup :=
      run_cache_nodup oracle evs2 first.2
        (cached_query_nodup oracle st args hnodup_st)
    have hlookup : cache_lookup later.entries args = some first.1 :=
      mem_cache_lookup hnodup_later hlater_mem
    show cached_query oracle later args = (first.1, later)
    unfold cached_query
    rw [hlookup]
  · constructor
    · show (cached_query oracle (clear_caches first.2) args).1 = _
      simp [cached_query, clear_caches, cache_lookup]
    · show (cached_query oracle (clear_caches first.2) args).2.round_trips = _
      simp [cached_query, clear_caches, cache_lookup]

/-- Witness for C4: with a round-trip oracle `fun n x => 100 * n + x`, after
querying argument 5 (one real round trip) and then argument 6 in between, a
repeated query of 5 returns the memoized first answer without a new round
trip. -/
theorem cache_query_correct_witness :
    cached_query (fun n x => 100 * n + x)
        (run_cache (fun n x => 100 * n + x)
          (cached_query (fun n x => 100 * n + x)
            (run_cache (fun n x => 100 * n + x) cache_empty [.query 5]) 5).2
          [.query 6]) 5 =
      ((cached_query (fun n x => 100 * n + x)
          (run_cache (fun n x => 100 * n + x) cache_empty [.query 5]) 5).1,
        run_cache (fun n x => 100 * n + x)
          (cached_query (fun n x => 100 * n + x)
            (run_cache (fun n x => 100 * n + x) cache_empty [.query 5]) 5).2
          [.query 6]) :=
  (cache_query_correct (fun n x => 100 * n + x) [.query 5] [.query 6] 5
    rfl).2.1

/- ============== Channel request/response discipline (C8) ============== -/

/-- An observable event on one channel's byte stream: the first bytes of a
sender's request frame going onto the wire, or that sender's response frame
having been read back. -/
inductive ChannelEvent where
  | begin_request (sender : Nat)
  | response (sender : Nat)
deriving DecidableEq

/-- Modelled from the spec: the state of one channel used by
`ClapBridge::send_message` — which sender (if any) currently has a request in
flight, together with the observable event trace so far. The socket layer is
not part of this slice; the spec's channel contract is a strictly
request/response conduit with at most one request outstanding. -/
structure ChannelState where
  holder : Option Nat
  trace : List ChannelEvent
deriving DecidableEq

/-- Modelled from the spec: the transitions of one channel. A `send` may begin
writing its request only when no other request is outstanding (acquiring the
channel); reading the response releases the channel. -/
inductive ChannelStep : ChannelState → ChannelState → Prop where
  | acquire (st : ChannelState) (sender : Nat) (h : st.holder = none) :
      ChannelStep st
        ⟨some sender, st.trace ++ [.begin_request sender]⟩
  | respond (st : ChannelState) (sender : Nat) (h : st.holder = some sender) :
      ChannelStep st ⟨none, st.trace ++ [.response sender]⟩

/-- The channel states reachable from a freshly connected channel. -/
inductive ChannelReachable : ChannelState → Prop where
  | init : ChannelReachable ⟨none, []⟩
  | step {st st' : ChannelState} (h : ChannelReachable st)
      (hs : ChannelStep st st') : ChannelReachable st'

/-- Replay a trace, tracking the outstanding request: `some holder` if the
trace is a well-nested request/response sequence leaving `holder`
outstanding, `none` (outer) if the trace is not strictly request/response. -/
def scan_trace : Option Nat → List ChannelEvent → Option (Option Nat)
  | out, [] => some out
  | none, .begin_request sender :: rest => scan_trace (some sender) rest
  | none, .response _ :: _ => none
  | some sender, .response other :: rest =>
    if sender = other then scan_trace none rest else none
  | some _, .begin_request _ :: _ => none

theorem scan_trace_append (t1 t2 : List ChannelEvent) (out : Option Nat) :
    scan_trace out (t1 ++ t2) =
      (scan_trace out t1).bind (fun out2 => scan_trace out2 t2) := by
  induction t1 generalizing out with
  | nil => simp [scan_trace]
  | cons e rest ih =>
      rcases out with _ | sender
      · cases e with
        | begin_request s => simp [scan_trace, ih]
        | response s => simp [scan_trace]
      · cases e with
        | begin_request s => simp [scan_trace]
        | response other =>
            by_cases h : sender = other
            · simp [scan_trace, h, ih]
            · simp [scan_trace, h]

theorem channel_reachable_scan (st : ChannelState)
    (h : ChannelReachable st) : scan_trace none st.trace = some st.holder := by
  induction h with
  | init => rfl
  | step h hs ih =>
      cases hs with
      | acquire sender hh =>
          rw [scan_trace_append, ih, hh]
          simp [scan_trace]
      | respond sender hh =>
          rw [scan_trace_append, ih, hh]
          simp [scan_trace]

/-- Claim C8: on every channel, at most one request is outstanding at a time.
Every reachable trace is a strictly alternating request/response sequence
(replaying it tracks exactly the outstanding holder), and whenever a second
`begin_request` appears after an earlier one, the very next event after the
first request is its own response: the second send observably begins only
after the first request's response has been received, with no interleaving. -/
theorem channel_at_most_one_outstanding (st : ChannelState)
    (h : ChannelReachable st) :
    scan_trace none st.trace = some st.holder ∧
      ∀ t1 t2 t3 sender other,
        st.trace = t1 ++ .begin_request sender :: t2 ++
          .begin_request other :: t3 →
        ∃ t2', t2 = .response sender :: t2' := by
  have hscan := channel_reachable_scan st h
  refine ⟨hscan, ?_⟩
  intro t1 t2 t3 sender other htrace
  have hsplit : st.trace =
      (t1 ++ [ChannelEvent.begin_request sender]) ++
        (t2 ++ ChannelEvent.begin_request other :: t3) := by
    rw [htrace]
    simp
  rw [hsplit, scan_trace_append] at hscan
  obtain ⟨out1, hh1, hh2⟩ := Option.bind_eq_some.mp hscan
  rw [scan_trace_append] at hh1
  obtain ⟨mid, hm1, hm2⟩ := Option.bind_eq_some.mp hh1
  rcases mid with _ | s1
  · simp only [scan_trace] at hm2
    cases hm2
    cases t2 with
    | nil =>
        simp only [List.nil_append, scan_trace] at hh2
        exact Option.noConfusion hh2
    | cons e t2' =>
        cases e with
        | begin_request s2 =>
            simp only [List.cons_append, scan_trace] at hh2
            exact Option.noConfusion hh2
        | response s2 =>
            by_cases hs2 : sender = s2
            · exact ⟨t2', by rw [hs2]⟩
            · simp only [List.cons_append, scan_trace, hs2, if_neg,
                ite_false] at hh2
              exact Option.noConfusion hh2
  · simp only [scan_trace] at hm2
    exact Option.noConfusion hm2

/-- Witness for C8: for the concrete reachable trace in which sender 1 sends,
receives its response, and then sender 2 begins, the trace replays to exactly
sender 2 outstanding, and the only events between the two request starts are
sender 1's response. -/
theorem channel_at_most_one_outstanding_witness :
    scan_trace none
        [ChannelEvent.begin_request 1, ChannelEvent.response 1,
          ChannelEvent.begin_request 2] = some (some 2) ∧
      ∃ t2', [ChannelEvent.response 1] = ChannelEvent.response 1 :: t2' :=
  have hreach : ChannelReachable
      ⟨some 2,
        [ChannelEvent.begin_request 1, ChannelEvent.response 1,
          ChannelEvent.begin_request 2]⟩ :=
    .step (.step (.step .init (.acquire ⟨none, []⟩ 1 rfl))
      (.respond ⟨some 1, [ChannelEvent.begin_request 1]⟩ 1 rfl))
      (.acquire ⟨none,
        [ChannelEvent.begin_request 1, ChannelEvent.response 1]⟩ 2 rfl)
  ⟨(channel_at_most_one_outstanding _ hreach).1,
    (channel_at_most_one_outstanding _ hreach).2 [] [ChannelEvent.response 1]
      [] 1 2 rfl⟩

/- ============ Tagged request unions and serialization (C5) ============ -/

/-- Modelled from the spec: the wire encoding of one tagged union value used
by the channel layer. Bitsery's in-place variant extension writes the active
alternative's index followed by the alternative's own serialized payload; the
concrete CLAP argument structs are external collaborators (the core depends
only on "variant in, variant out"), so each variant's argument payload is kept
as its serialized bytes. Framing is length-prefixed. -/
def encode_tagged (tag : Nat) (payload : List Nat) : List Nat :=
  tag :: payload.length :: payload

/-- `ClapMainThreadControlRequest` from the CLAP communication layer sources:
the closed variant set of main thread control messages the plugin can send to
the Wine host, in declaration order (`WantsConfiguration`,
`clap::plugin_factory::List`, `clap::plugin_factory::Create`,
`clap::plugin::Init`, `Destroy`, `Activate`, `Deactivate`,
`clap::ext::audio_ports::plugin::Count`/`Get`, `clap::ext::latency::plugin::Get`,
`clap::ext::note_ports::plugin::Count`/`Get`, `clap::ext::params::plugin::Count`/
`GetInfo`/`GetValue`/`ValueToText`/`TextToValue`,
`clap::ext::state::plugin::Save`/`Load`). Each variant carries its argument
payload as serialized bytes. -/
inductive ClapMainThreadControlRequest where
  | wants_configuration (payload : List Nat)
  | plugin_factory_list (payload : List Nat)
  | plugin_factory_create (payload : List Nat)
  | plugin_init (payload : List Nat)
  | plugin_destroy (payload : List Nat)
  | plugin_activate (payload : List Nat)
  | plugin_deactivate (payload : List Nat)
  | audio_ports_count (payload : List Nat)
  | audio_ports_get (payload : List Nat)
  | latency_get (payload : List Nat)
  | note_ports_count (payload : List Nat)
  | note_ports_get (payload : List Nat)
  | params_count (payload : List Nat)
  | params_get_info (payload : List Nat)
  | params_get_value (payload : List Nat)
  | params_value_to_text (payload : List Nat)
  | params_text_to_value (payload : List Nat)
  | state_save (payload : List Nat)
  | state_load (payload : List Nat)
deriving DecidableEq

/-- The variant index bitsery's in-place variant extension writes for a
`ClapMainThreadControlRequest`, following declaration order. -/
def mtc_tag : ClapMainThreadControlRequest → Nat
  | .wants_configuration _ => 0
  | .plugin_factory_list _ => 1
  | .plugin_factory_create _ => 2
  | .plugin_init _ => 3
  | .plugin_destroy _ => 4
  | .plugin_activate _ => 5
  | .plugin_deactivate _ => 6
  | .audio_ports_count _ => 7
  | .audio_ports_get _ => 8
  | .latency_get _ => 9
  | .note_ports_count _ => 10
  | .note_ports_get _ => 11
  | .params_count _ => 12
  | .params_get_info _ => 13
  | .params_get_value _ => 14
  | .params_value_to_text _ => 15
  | .params_text_to_value _ => 16
  | .state_save _ => 17
  | .state_load _ => 18

/-- The argument payload bytes of a `ClapMainThreadControlRequest`. -/
def mtc_payload : ClapMainThreadControlRequest → List Nat
  | .wants_configuration p => p
  | .plugin_factory_list p => p
  | .plugin_factory_create p => p
  | .plugin_init p => p
  | .plugin_destroy p => p
  | .plugin_activate p => p
  | .plugin_deactivate p => p
  | .audio_ports_count p => p
  | .audio_ports_get p => p
  | .latency_get p => p
  | .note_ports_count p => p
  | .note_ports_get p => p
  | .params_count p => p
  | .params_get_info p => p
  | .params_get_value p => p
  | .params_value_to_text p => p
  | .params_text_to_value p => p
  | .state_save p => p
  | .state_load p => p

/-- Rebuild a `ClapMainThreadControlRequest` from a decoded variant index and
payload; an index outside the closed variant set is a protocol violation and
decodes to nothing. -/
def mtc_of_tag : Nat → List Nat → Option ClapMainThreadControlRequest
  | 0, payload => some (.wants_configuration payload)
  | 1, payload => some (.plugin_factory_list payload)
  | 2, payload => some (.plugin_factory_create payload)
  | 3, payload => some (.plugin_init payload)
  | 4, payload => some (.plugin_destroy payload)
  | 5, payload => some (.plugin_activate payload)
  | 6, payload => some (.plugin_deactivate payload)
  | 7, payload => some (.audio_ports_count payload)
  | 8, payload => some (.audio_ports_get payload)
  | 9, payload => some (.latency_get payload)
  | 10, payload => some (.note_ports_count payload)
  | 11, payload => some (.note_ports_get payload)
  | 12, payload => some (.params_count payload)
  | 13, payload => some (.params_get_info payload)
  | 14, payload => some (.params_get_value payload)
  | 15, payload => some (.params_value_to_text payload)
  | 16, payload => some (.params_text_to_value payload)
  | 17, payload => some (.state_save payload)
  | 18, payload => some (.state_load payload)
  | _ + 19, _ => none

/-- The `serialize` function for `ClapMainThreadControlRequest`: the in-place
variant extension writes the variant index, then the active alternative. -/
def serialize_mtc (x : ClapMainThreadControlRequest) : List Nat :=
  encode_tagged (mtc_tag x) (mtc_payload x)

/-- Decoding a framed `ClapMainThreadControlRequest`: read the variant index
and the length-prefixed payload; a malformed frame or unknown index decodes to
nothing (the channel is considered corrupted). -/
def deserialize_mtc (bytes : List Nat) : Option ClapMainThreadControlRequest :=
  match bytes with
  | tag :: len :: rest =>
    if rest.length = len then mtc_of_tag tag rest else none
  | _ => none

theorem deserialize_mtc_encode (tag : Nat) (payload : List Nat) :
    deserialize_mtc (encode_tagged tag payload) = mtc_of_tag tag payload := by
  show (if payload.length = payload.length then mtc_of_tag tag payload
    else none) = mtc_of_tag tag payload
  rw [if_pos rfl]

theorem mtc_of_tag_eq (tag : Nat) (payload : List Nat)
    (x : ClapMainThreadControlRequest) (h : mtc_of_tag tag payload = some x) :
    mtc_tag x = tag ∧ mtc_payload x = payload := by
  match tag, h with
  | 0, h => injection h with hx; subst hx; exact ⟨rfl, rfl⟩
  | 1, h => injection h with hx; subst hx; exact ⟨rfl, rfl⟩
  | 2, h => injection h with hx; subst hx; exact ⟨rfl, rfl⟩
  | 3, h => injection h with hx; subst hx; exact ⟨rfl, rfl⟩
  | 4, h => injection h with hx; subst hx; exact ⟨rfl, rfl⟩
  | 5, h => injection h with hx; subst hx; exact ⟨rfl, rfl⟩
  | 6, h => injection h with hx; subst hx; exact ⟨rfl, rfl⟩
  | 7, h => injection h with hx; subst hx; exact ⟨rfl, rfl⟩
  | 8, h => injection h with hx; subst hx; exact ⟨rfl, rfl⟩
  | 9, h => injection h with hx; subst hx; exact ⟨rfl, rfl⟩
  | 10, h => injection h with hx; subst hx; exact ⟨rfl, rfl⟩
  | 11, h => injection h with hx; subst hx; exact ⟨rfl, rfl⟩
  | 12, h => injection h with hx; subst hx; exact ⟨rfl, rfl⟩
  | 13, h => injection h with hx; subst hx; exact ⟨rfl, rfl⟩
  | 14, h => injection h with hx; subst hx; exact ⟨rfl, rfl⟩
  | 15, h => injection h with hx; subst hx; exact ⟨rfl, rfl⟩
  | 16, h => injection h with hx; subst hx; exact ⟨rfl, rfl⟩
  | 17, h => injection h with hx; subst hx; exact ⟨rfl, rfl⟩
  | 18, h => injection h with hx; subst hx; exact ⟨rfl, rfl⟩
  | _ + 19, h => exact Option.noConfusion h

theorem mtc_roundtrip (x : ClapMainThreadControlRequest) :
    deserialize_mtc (serialize_mtc x) = some x := by
  rw [serialize_mtc, deserialize_mtc_encode]
  cases x <;> rfl

theorem mtc_lossless (bytes : List Nat) (x : ClapMainThreadControlRequest)
    (h : deserialize_mtc bytes = some x) : bytes = serialize_mtc x := by
  cases bytes with
  | nil => exact Option.noConfusion h
  | cons tag rest1 =>
      cases rest1 with
      | nil => exact Option.noConfusion h
      | cons len rest =>
          rw [show deserialize_mtc (tag :: len :: rest) =
              (if rest.length = len then mtc_of_tag tag rest else none)
            from rfl] at h
          by_cases hlen : rest.length = len
          · rw [if_pos hlen] at h
            obtain ⟨ht, hp⟩ := mtc_of_tag_eq tag rest x h
            rw [serialize_mtc, encode_tagged, ht, hp, hlen]
          · rw [if_neg hlen] at h
            exact Option.noConfusion h

/-- The payload variant of `ClapAudioThreadControlRequest` from the CLAP
communication layer sources (the struct wraps this `Payload` variant so a
future process-data variant can deserialize into a thread local; `serialize`
writes the variant in place): `clap::plugin::StartProcessing`,
`StopProcessing`, `Reset`, `clap::ext::params::plugin::Flush`,
`clap::ext::tail::plugin::Get`, in declaration order. -/
inductive ClapAudioThreadControlRequest where
  | start_processing (payload : List Nat)
  | stop_processing (payload : List Nat)
  | reset (payload : List Nat)
  | params_flush (payload : List Nat)
  | tail_get (payload : List Nat)
deriving DecidableEq

/-- The variant index written for a `ClapAudioThreadControlRequest`. -/
def atc_tag : ClapAudioThreadControlRequest → Nat
  | .start_processing _ => 0
  | .stop_processing _ => 1
  | .reset _ => 2
  | .params_flush _ => 3
  | .tail_get _ => 4

/-- The argument payload bytes of a `ClapAudioThreadControlRequest`. -/
def atc_payload : ClapAudioThreadControlRequest → List Nat
  | .start_processing p => p
  | .stop_processing p => p
  | .reset p => p
  | .params_flush p => p
  | .tail_get p => p

/-- Rebuild a `ClapAudioThreadControlRequest` from a decoded variant index
and payload; an unknown index decodes to nothing. -/
def atc_of_tag : Nat → List Nat → Option ClapAudioThreadControlRequest
  | 0, payload => some (.start_processing payload)
  | 1, payload => some (.stop_processing payload)
  | 2, payload => some (.reset payload)
  | 3, payload => some (.params_flush payload)
  | 4, payload => some (.tail_get payload)
  | _ + 5, _ => none

/-- The `serialize` member function of `ClapAudioThreadControlRequest`: the
in-place variant extension writes the index, then the active alternative. -/
def serialize_atc (x : ClapAudioThreadControlRequest) : List Nat :=
  encode_tagged (atc_tag x) (atc_payload x)

/-- Decoding a framed `ClapAudioThreadControlRequest`. -/
def deserialize_atc (bytes : List Nat) :
    Option ClapAudioThreadControlRequest :=
  match bytes with
  | tag :: len :: rest =>
    if rest.length = len then atc_of_tag tag rest else none
  | _ => none

theorem atc_of_tag_eq (tag : Nat) (payload : List Nat)
    (x : ClapAudioThreadControlRequest) (h : atc_of_tag tag payload = some x) :
    atc_tag x = tag ∧ atc_payload x = payload := by
  match tag, h with
  | 0, h => injection h with hx; subst hx; exact ⟨rfl, rfl⟩
  | 1, h => injection h with hx; subst hx; exact ⟨rfl, rfl⟩
  | 2, h => injection h with hx; subst hx; exact ⟨rfl, rfl⟩
  | 3, h => injection h with hx; subst hx; exact ⟨rfl, rfl⟩
  | 4, h => injection h with hx; subst hx; exact ⟨rfl, rfl⟩
  | _ + 5, h => exact Option.noConfusion h

theorem atc_roundtrip (x : ClapAudioThreadControlRequest) :
    deserialize_atc (serialize_atc x) = some x := by
  rw [serialize_atc,
    show deserialize_atc (encode_tagged (atc_tag x) (atc_payload x)) =
        (if (atc_payload x).length = (atc_payload x).length then
          atc_of_tag (atc_tag x) (atc_payload x) else none)
      from rfl, if_pos rfl]
  cases x <;> rfl

theorem atc_lossless (bytes : List Nat) (x : ClapAudioThreadControlRequest)
    (h : deserialize_atc bytes = some x) : bytes = serialize_atc x := by
  cases bytes with
  | nil => exact Option.noConfusion h
  | cons tag rest1 =>
      cases rest1 with
      | nil => exact Option.noConfusion h
      | cons len rest =>
          rw [show deserialize_atc (tag :: len :: rest) =
              (if rest.length = len then atc_of_tag tag rest else none)
            from rfl] at h
          by_cases hlen : rest.length = len
          · rw [if_pos hlen] at h
            obtain ⟨ht, hp⟩ := atc_of_tag_eq tag rest x h
            rw [serialize_atc, encode_tagged, ht, hp, hlen]
          · rw [if_neg hlen] at h
            exact Option.noConfusion h

/-- `ClapMainThreadCallbackRequest` from the CLAP communication layer
sources: the closed variant set of main thread callbacks the Wine host can
send to the plugin, in declaration order (`WantsConfiguration`,
`clap::host::RequestRestart`/`RequestProcess`,
`clap::ext::latency::host::Changed`,
`clap::ext::audio_ports::host::IsRescanFlagSupported`/`Rescan`,
`clap::ext::gui::host::ResizeHintsChanged`/`RequestResize`/`RequestShow`/
`RequestHide`/`Closed`, `clap::ext::note_ports::host::SupportedDialects`/
`Rescan`, `clap::ext::params::host::Rescan`/`Clear`,
`clap::ext::state::host::MarkDirty`). -/
inductive ClapMainThreadCallbackRequest where
  | wants_configuration (payload : List Nat)
  | request_restart (payload : List Nat)
  | request_process (payload : List Nat)
  | latency_changed (payload : List Nat)
  | audio_ports_is_rescan_flag_supported (payload : List Nat)
  | audio_ports_rescan (payload : List Nat)
  | gui_resize_hints_changed (payload : List Nat)
  | gui_request_resize (payload : List Nat)
  | gui_request_show (payload : List Nat)
  | gui_request_hide (payload : List Nat)
  | gui_closed (payload : List Nat)
  | note_ports_supported_dialects (payload : List Nat)
  | note_ports_rescan (payload : List Nat)
  | params_rescan (payload : List Nat)
  | params_clear (payload : List Nat)
  | state_mark_dirty (payload : List Nat)
deriving DecidableEq

/-- The variant index written for a `ClapMainThreadCallbackRequest`. -/
def mtcb_tag : ClapMainThreadCallbackRequest → Nat
  | .wants_configuration _ => 0
  | .request_restart _ => 1
  | .request_process _ => 2
  | .latency_changed _ => 3
  | .audio_ports_is_rescan_flag_supported _ => 4
  | .audio_ports_rescan _ => 5
  | .gui_resize_hints_changed _ => 6
  | .gui_request_resize _ => 7
  | .gui_request_show _ => 8
  | .gui_request_hide _ => 9
  | .gui_closed _ => 10
  | .note_ports_supported_dialects _ => 11
  | .note_ports_rescan _ => 12
  | .params_rescan _ => 13
  | .params_clear _ => 14
  | .state_mark_dirty _ => 15

/-- The argument payload bytes of a `ClapMainThreadCallbackRequest`. -/
def mtcb_payload : ClapMainThreadCallbackRequest → List Nat
  | .wants_configuration p => p
  | .request_restart p => p
  | .request_process p => p
  | .latency_changed p => p
  | .audio_ports_is_rescan_flag_supported p => p
  | .audio_ports_rescan p => p
  | .gui_resize_hints_changed p => p
  | .gui_request_resize p => p
  | .gui_request_show p => p
  | .gui_request_hide p => p
  | .gui_closed p => p
  | .note_ports_supported_dialects p => p
  | .note_ports_rescan p => p
  | .params_rescan p => p
  | .params_clear p => p
  | .state_mark_dirty p => p

/-- Rebuild a `ClapMainThreadCallbackRequest` from a decoded variant index
and payload; an unknown index decodes to nothing. -/
def mtcb_of_tag : Nat → List Nat → Option ClapMainThreadCallbackRequest
  | 0, payload => some (.wants_configuration payload)
  | 1, payload => some (.request_restart payload)
  | 2, payload => some (.request_process payload)
  | 3, payload => some (.latency_changed payload)
  | 4, payload => some (.audio_ports_is_rescan_flag_supported payload)
  | 5, payload => some (.audio_ports_rescan payload)
  | 6, payload => some (.gui_resize_hints_changed payload)
  | 7, payload => some (.gui_request_resize payload)
  | 8, payload => some (.gui_request_show payload)
  | 9, payload => some (.gui_request_hide payload)
  | 10, payload => some (.gui_closed payload)
  | 11, payload => some (.note_ports_supported_dialects payload)
  | 12, payload => some (.note_ports_rescan payload)
  | 13, payload => some (.params_rescan payload)
  | 14, payload => some (.params_clear payload)
  | 15, payload => some (.state_mark_dirty payload)
  | _ + 16, _ => none

/-- The `serialize` function for `ClapMainThreadCallbackRequest`. -/
def serialize_mtcb (x : ClapMainThreadCallbackRequest) : List Nat :=
  encode_tagged (mtcb_tag x) (mtcb_payload x)

/-- Decoding a framed `ClapMainThreadCallbackRequest`. -/
def deserialize_mtcb (bytes : List Nat) :
    Option ClapMainThreadCallbackRequest :=
  match bytes with
  | tag :: len :: rest =>
    if rest.length = len then mtcb_of_tag tag rest else none
  | _ => none

theorem mtcb_of_tag_eq (tag : Nat) (payload : List Nat)
    (x : ClapMainThreadCallbackRequest) (h : mtcb_of_tag tag payload = some x) :
    mtcb_tag x = tag ∧ mtcb_payload x = payload := by
  match tag, h with
  | 0, h => injection h with hx; subst hx; exact ⟨rfl, rfl⟩
  | 1, h => injection h with hx; subst hx; exact ⟨rfl, rfl⟩
  | 2, h => injection h with hx; subst hx; exact ⟨rfl, rfl⟩
  | 3, h => injection h with hx; subst hx; exact ⟨rfl, rfl⟩
  | 4, h => injection h with hx; subst hx; exact ⟨rfl, rfl⟩
  | 5, h => injection h with hx; subst hx; exact ⟨rfl, rfl⟩
  | 6, h => injection h with hx; subst hx; exact ⟨rfl, rfl⟩
  | 7, h => injection h with hx; subst hx; exact ⟨rfl, rfl⟩
  | 8, h => injection h with hx; subst hx; exact ⟨rfl, rfl⟩
  | 9, h => injection h with hx; subst hx; exact ⟨rfl, rfl⟩
  | 10, h => injection h with hx; subst hx; exact ⟨rfl, rfl⟩
  | 11, h => injection h with hx; subst hx; exact ⟨rfl, rfl⟩
  | 12, h => injection h with hx; subst hx; exact ⟨rfl, rfl⟩
  | 13, h => injection h with hx; subst hx; exact ⟨rfl, rfl⟩
  | 14, h => injection h with hx; subst hx; exact ⟨rfl, rfl⟩
  | 15, h => injection h with hx; subst hx; exact ⟨rfl, rfl⟩
  | _ + 16, h => exact Option.noConfusion h

theorem mtcb_roundtrip (x : ClapMainThreadCallbackRequest) :
    deserialize_mtcb (serialize_mtcb x) = some x := by
  rw [serialize_mtcb,
    show deserialize_mtcb (encode_tagged (mtcb_tag x) (mtcb_payload x)) =
        (if (mtcb_payload x).length = (mtcb_payload x).length then
          mtcb_of_tag (mtcb_tag x) (mtcb_payload x) else none)
      from rfl, if_pos rfl]
  cases x <;> rfl

theorem mtcb_lossless (bytes : List Nat) (x : ClapMainThreadCallbackRequest)
    (h : deserialize_mtcb bytes = some x) : bytes = serialize_mtcb x := by
  cases bytes with
  | nil => exact Option.noConfusion h
  | cons tag rest1 =>
      cases rest1 with
      | nil => exact Option.noConfusion h
      | cons len rest =>
          rw [show deserialize_mtcb (tag :: len :: rest) =
              (if rest.length = len then mtcb_of_tag tag rest else none)
            from rfl] at h
          by_cases hlen : rest.length = len
          · rw [if_pos hlen] at h
            obtain ⟨ht, hp⟩ := mtcb_of_tag_eq tag rest x h
            rw [serialize_mtcb, encode_tagged, ht, hp, hlen]
          · rw [if_neg hlen] at h
            exact Option.noConfusion h

/-- `ClapAudioThreadCallbackRequest` from the CLAP communication layer
sources: the closed variant set of audio thread callbacks, in declaration
order (`WantsConfiguration`, `clap::ext::params::host::RequestFlush`,
`clap::ext::tail::host::Changed`). -/
inductive ClapAudioThreadCallbackRequest where
  | wants_configuration (payload : List Nat)
  | params_request_flush (payload : List Nat)
  | tail_changed (payload : List Nat)
deriving DecidableEq

/-- The variant index written for a `ClapAudioThreadCallbackRequest`. -/
def atcb_tag : ClapAudioThreadCallbackRequest → Nat
  | .wants_configuration _ => 0
  | .params_request_flush _ => 1
  | .tail_changed _ => 2

/-- The argument payload bytes of a `ClapAudioThreadCallbackRequest`. -/
def atcb_payload : ClapAudioThreadCallbackRequest → List Nat
  | .wants_configuration p => p
  | .params_request_flush p => p
  | .tail_changed p => p

/-- Rebuild a `ClapAudioThreadCallbackRequest` from a decoded variant index
and payload; an unknown index decodes to nothing. -/
def atcb_of_tag : Nat → List Nat → Option ClapAudioThreadCallbackRequest
  | 0, payload => some (.wants_configuration payload)
  | 1, payload => some (.params_request_flush payload)
  | 2, payload => some (.tail_changed payload)
  | _ + 3, _ => none

/-- The `serialize` function for `ClapAudioThreadCallbackRequest`. -/
def serialize_atcb (x : ClapAudioThreadCallbackRequest) : List Nat :=
  encode_tagged (atcb_tag x) (atcb_payload x)

/-- Decoding a framed `ClapAudioThreadCallbackRequest`. -/
def deserialize_atcb (bytes : List Nat) :
    Option ClapAudioThreadCallbackRequest :=
  match bytes with
  | tag :: len :: rest =>
    if rest.length = len then atcb_of_tag tag rest else none
  | _ => none

theorem atcb_of_tag_eq (tag : Nat) (payload : List Nat)
    (x : ClapAudioThreadCallbackRequest) (h : atcb_of_tag tag payload = some x) :
    atcb_tag x = tag ∧ atcb_payload x = payload := by
  match tag, h with
  | 0, h => injection h with hx; subst hx; exact ⟨rfl, rfl⟩
  | 1, h => injection h with hx; subst hx; exact ⟨rfl, rfl⟩
  | 2, h => injection h with hx; subst hx; exact ⟨rfl, rfl⟩
  | _ + 3, h => exact Option.noConfusion h

theorem atcb_roundtrip (x : ClapAudioThreadCallbackRequest) :
    deserialize_atcb (serialize_atcb x) = some x := by
  rw [serialize_atcb,
    show deserialize_atcb (encode_tagged (atcb_tag x) (atcb_payload x)) =
        (if (atcb_payload x).length = (atcb_payload x).length then
          atcb_of_tag (atcb_tag x) (atcb_payload x) else none)
      from rfl, if_pos rfl]
  cases x <;> rfl

theorem atcb_lossless (bytes : List Nat) (x : ClapAudioThreadCallbackRequest)
    (h : deserialize_atcb bytes = some x) : bytes = serialize_atcb x := by
  cases bytes with
  | nil => exact Option.noConfusion h
  | cons tag rest1 =>
      cases rest1 with
      | nil => exact Option.noConfusion h
      | cons len rest =>
          rw [show deserialize_atcb (tag :: len :: rest) =
              (if rest.length = len then atcb_of_tag tag rest else none)
            from rfl] at h
          by_cases hlen : rest.length = len
          · rw [if_pos hlen] at h
            obtain ⟨ht, hp⟩ := atcb_of_tag_eq tag rest x h
            rw [serialize_atcb, encode_tagged, ht, hp, hlen]
          · rw [if_neg hlen] at h
            exact Option.noConfusion h

/-- Claim C5: for every representable variant of the four tagged request
unions (`ClapMainThreadControlRequest`, `ClapAudioThreadControlRequest`,
`ClapMainThreadCallbackRequest`, `ClapAudioThreadCallbackRequest`),
deserializing the serialized form yields the original value, and the encoding
is self-describing: any byte sequence that decodes to a value is exactly that
value's encoding, so the receiver can determine the variant without external
context and decoding never partially succeeds. -/
theorem clap_request_serialization_roundtrip :
    (∀ x : ClapMainThreadControlRequest,
      deserialize_mtc (serialize_mtc x) = some x) ∧
      (∀ (bytes : List Nat) (x : ClapMainThreadControlRequest),
        deserialize_mtc bytes = some x → bytes = serialize_mtc x) ∧
      (∀ x : ClapAudioThreadControlRequest,
        deserialize_atc (serialize_atc x) = some x) ∧
      (∀ (bytes : List Nat) (x : ClapAudioThreadControlRequest),
        deserialize_atc bytes = some x → bytes = serialize_atc x) ∧
      (∀ x : ClapMainThreadCallbackRequest,
        deserialize_mtcb (serialize_mtcb x) = some x) ∧
      (∀ (bytes : List Nat) (x : ClapMainThreadCallbackRequest),
        deserialize_mtcb bytes = some x → bytes = serialize_mtcb x) ∧
      (∀ x : ClapAudioThreadCallbackRequest,
        deserialize_atcb (serialize_atcb x) = some x) ∧
      (∀ (bytes : List Nat) (x : ClapAudioThreadCallbackRequest),
        deserialize_atcb bytes = some x → bytes = serialize_atcb x) :=
  ⟨mtc_roundtrip, mtc_lossless, atc_roundtrip, atc_lossless,
    mtcb_roundtrip, mtcb_lossless, atcb_roundtrip, atcb_lossless⟩

/-- Witness for C5: the concrete frame `[3, 1, 7]` decodes to a
`clap::plugin::Init` request with payload `[7]`, and is exactly that request's
encoding. -/
theorem clap_request_serialization_roundtrip_witness :
    [3, 1, 7] =
      serialize_mtc (ClapMainThreadControlRequest.plugin_init [7]) :=
  clap_request_serialization_roundtrip.2.1 [3, 1, 7]
    (ClapMainThreadControlRequest.plugin_init [7]) rfl
